import Mathlib

/-!
Verification of the Report-back-FAST-API record pipeline.

This file gives a shallow embedding, in Lean, of the Python code of the
repository (src/app/services/data_source_client.py,
src/app/services/record_cache.py, src/app/main.py,
src/app/services/report_view_builder.py) and proves properties of that
embedding.

Modelling conventions:
* Python JSON-like dynamic values become `JVal` (dicts are association
  lists in insertion order, as CPython dicts are ordered).  JSON numbers
  are modelled as integers (`Int`); none of the code paths studied here
  computes with fractional values.
* Python truthiness (`if value:`) becomes `truthy`.
* The external collaborators that are not part of the repository
  (`request_json` / the HTTP transport, `build_full_url`, the file
  system, the current working directory, the clock) become explicit
  function/value parameters, so every definition stays executable and
  the set of outgoing HTTP requests can be observed as a trace.
* Raised exceptions become `Except` / `Option` results.
-/

set_option maxHeartbeats 1000000

/-- JSON-like dynamic value (the `Any` of the Python code restricted to
JSON shapes).  `obj` keeps fields in insertion order, like a CPython
dict. -/
inductive JVal where
  | null : JVal
  | bool : Bool → JVal
  | num : Int → JVal
  | str : String → JVal
  | arr : List JVal → JVal
  | obj : List (String × JVal) → JVal

namespace JVal

/-- Python truthiness of a JSON value: `None`, `False`, `0`, `""`, `[]`
and `{}` are falsy, everything else is truthy. -/
def truthy : JVal → Bool
  | .null => false
  | .bool b => b
  | .num n => n != 0
  | .str s => s != ""
  | .arr l => !l.isEmpty
  | .obj l => !l.isEmpty

/-- `value is None`. -/
def isNull : JVal → Bool
  | .null => true
  | _ => false

/-- `isinstance(value, dict)`. -/
def isObj : JVal → Bool
  | .obj _ => true
  | _ => false

/-- `isinstance(value, list)`. -/
def isArr : JVal → Bool
  | .arr _ => true
  | _ => false

/-- `isinstance(value, (dict, list))` — a structured body. -/
def isStructured : JVal → Bool
  | .obj _ => true
  | .arr _ => true
  | _ => false

end JVal

/-- First value bound to key `k` in an association-list dict
(CPython dicts have unique keys, so this is `d.get(k)` returning
`none` for "absent"). -/
def dGet (d : List (String × JVal)) (k : String) : Option JVal :=
  match d with
  | [] => none
  | (k', v) :: rest => if k' = k then some v else dGet rest k

/-- `k in d`. -/
def dHasKey (d : List (String × JVal)) (k : String) : Bool :=
  match d with
  | [] => false
  | (k', _) :: rest => k' = k || dHasKey rest k

/-- `d.get(k)` as Python sees it: absent keys give `None`. -/
def jGetD (d : List (String × JVal)) (k : String) : JVal :=
  (dGet d k).getD .null

/-- `value.get(k)` when `value` is a dict, `None`-like otherwise. -/
def jGet (v : JVal) (k : String) : JVal :=
  match v with
  | .obj d => jGetD d k
  | _ => .null

/-- `d[k] = v`: update in place when the key exists (keeping its
position, as CPython dicts do), append otherwise. -/
def dSet (d : List (String × JVal)) (k : String) (v : JVal) :
    List (String × JVal) :=
  match d with
  | [] => [(k, v)]
  | (k', v') :: rest =>
      if k' = k then (k, v) :: rest else (k', v') :: dSet rest k v

/-- `d.pop(k, None)`: remove the entry for `k` (CPython dicts hold a key
at most once). -/
def dPop (d : List (String × JVal)) (k : String) : List (String × JVal) :=
  match d with
  | [] => []
  | (k', v') :: rest => if k' = k then rest else (k', v') :: dPop rest k

/-- `d.setdefault(k, v)`: insert `v` at the end only when `k` is
absent. -/
def dSetDefault (d : List (String × JVal)) (k : String) (v : JVal) :
    List (String × JVal) :=
  if dHasKey d k then d else d ++ [(k, v)]

/-- `d.update(other)` / `{**d, **other}`: existing keys keep their
position and take `other`'s value, new keys of `other` are appended in
`other`'s order. -/
def dUpdate (d other : List (String × JVal)) : List (String × JVal) :=
  other.foldl (fun acc kv => dSet acc kv.1 kv.2) d

/-- Python `a or b` on JSON values. -/
def pyOr (a b : JVal) : JVal :=
  if a.truthy then a else b

/-- Python `a or b or "…"` on optional strings (`None` and `""` are
falsy). -/
def pyStrOr (a : Option String) (b : String) : String :=
  match a with
  | some s => if s = "" then b else s
  | none => b

/-- String-valued dict (the `headers` dicts of the code). -/
def sGet (d : List (String × String)) (k : String) : Option String :=
  match d with
  | [] => none
  | (k', v) :: rest => if k' = k then some v else sGet rest k

/-- `headers.setdefault(k, v)`. -/
def sSetDefault (d : List (String × String)) (k v : String) :
    List (String × String) :=
  match sGet d k with
  | some _ => d
  | none => d ++ [(k, v)]


/-! ### Kernel-computable string primitives.

Core `String.trim`, `startsWith`, `isPrefixOf`, `toUpper`, `splitOn`,
`endsWith` and `<` are implemented on `Substring` positions or by
well-founded recursion and do not reduce inside the kernel; the
character-list versions below have the same meaning (for `strLtB`,
CPython's code-point lexicographic string order) and are used in every
definition that must evaluate on concrete inputs. -/

/-- Python `str.strip()` whitespace (ASCII subset). -/
def isPyWs (c : Char) : Bool :=
  c = ' ' || c = '\t' || c = '\n' || c = '\r' ||
    c = Char.ofNat 11 || c = Char.ofNat 12

/-- `value.strip()`. -/
def pyStrip (s : String) : String :=
  String.mk (((s.data.dropWhile isPyWs).reverse.dropWhile isPyWs).reverse)

/-- `s.startswith(p)`. -/
def strStartsWith (s p : String) : Bool :=
  p.data.isPrefixOf s.data

/-- `s.upper()` (ASCII; the methods compared against are ASCII). -/
def strToUpper (s : String) : String :=
  String.mk (s.data.map Char.toUpper)

/-- `s.endswith(p)`. -/
def strEndsWith (s p : String) : Bool :=
  p.data.reverse.isPrefixOf s.data.reverse

/-- Code-point lexicographic `<` on strings (CPython string order). -/
def charsLtB : List Char → List Char → Bool
  | [], [] => false
  | [], _ :: _ => true
  | _ :: _, [] => false
  | a :: as, b :: bs =>
      if a.toNat < b.toNat then true
      else if b.toNat < a.toNat then false
      else charsLtB as bs

def strLtB (a b : String) : Bool := charsLtB a.data b.data

/-- Split on the `/` character (`s.split("/")` as `os.path` uses it). -/
def splitOnSlashAux : List Char → List Char → List String
  | [], cur => [String.mk cur.reverse]
  | c :: rest, cur =>
      if c = '/' then String.mk cur.reverse :: splitOnSlashAux rest []
      else splitOnSlashAux rest (c :: cur)

def splitOnSlash (s : String) : List String := splitOnSlashAux s.data []

/-! ## JSON serialization (`json.dumps(..., ensure_ascii=False, sort_keys=True)`)
and a JSON reader (`json.loads`), used by `normalize_remote_body` for
`rawBody` and by `build_records_cache_key` for the fingerprint.  JSON
numbers are modelled as integers; a fractional literal makes the reader
fail (and `normalize_remote_body` then keeps the raw string, which is
the conservative branch of the Python `try/except`). -/

def hexDigit (n : Nat) : Char :=
  if n < 10 then Char.ofNat (48 + n) else Char.ofNat (87 + n)

def natToHex (digits n : Nat) : String :=
  match digits with
  | 0 => ""
  | d + 1 => natToHex d (n / 16) ++ String.singleton (hexDigit (n % 16))

/-- Escape one character the way `json.dumps(..., ensure_ascii=False)`
does: only the quote, the backslash and control characters are
escaped. -/
def escapeJsonChar (c : Char) : String :=
  if c = '"' then "\\\""
  else if c = '\\' then "\\\\"
  else if c = '\n' then "\\n"
  else if c = '\t' then "\\t"
  else if c = '\r' then "\\r"
  else if c = Char.ofNat 8 then "\\b"
  else if c = Char.ofNat 12 then "\\f"
  else if c.toNat < 32 then "\\u" ++ natToHex 4 c.toNat
  else String.singleton c

def dumpJsonString (s : String) : String :=
  "\"" ++ String.join (s.data.map escapeJsonChar) ++ "\""

/-- Insertion sort of already-serialized object items by key
(`sort_keys=True`; CPython compares strings by code points, as `<` on
`String` does). -/
def insertByKey (x : String × String) :
    List (String × String) → List (String × String)
  | [] => [x]
  | y :: ys => if strLtB x.1 y.1 then x :: y :: ys else y :: insertByKey x ys

def sortByKey (l : List (String × String)) : List (String × String) :=
  l.foldr insertByKey []

/-- `json.dumps(v, ensure_ascii=False, sort_keys=True, default=str)`
with the default item/key separators `", "` and `": "`.  Every `JVal`
is JSON-serializable, so `default=str` never fires in the model. -/
def jsonDumps : JVal → String
  | .null => "null"
  | .bool true => "true"
  | .bool false => "false"
  | .num n => toString n
  | .str s => dumpJsonString s
  | .arr xs =>
      "[" ++ String.intercalate ", " (xs.attach.map (fun x => jsonDumps x.1)) ++ "]"
  | .obj kvs =>
      let items := kvs.attach.map (fun kv => (kv.1.1, jsonDumps kv.1.2))
      "\x7b" ++
        String.intercalate ", "
          ((sortByKey items).map (fun kv => dumpJsonString kv.1 ++ ": " ++ kv.2)) ++
        "\x7d"
termination_by v => sizeOf v
decreasing_by
  · have h := List.sizeOf_lt_of_mem x.2
    simp only [JVal.arr.sizeOf_spec]
    omega
  · have h := List.sizeOf_lt_of_mem kv.2
    have h2 : sizeOf kv.1.2 < sizeOf kv.1 := by
      obtain ⟨k, v⟩ := kv.1
      simp only [Prod.mk.sizeOf_spec]
      omega
    simp only [JVal.obj.sizeOf_spec]
    omega

def skipWs : List Char → List Char
  | [] => []
  | c :: rest =>
      if c = ' ' || c = '\t' || c = '\n' || c = '\r' then skipWs rest else c :: rest

def hexVal (c : Char) : Option Nat :=
  if '0' ≤ c && c ≤ '9' then some (c.toNat - 48)
  else if 'a' ≤ c && c ≤ 'f' then some (c.toNat - 87)
  else if 'A' ≤ c && c ≤ 'F' then some (c.toNat - 55)
  else none

/-- Characters of a JSON string literal, after the opening quote; stops
at the closing quote and decodes the standard escapes. -/
def readJsonStringChars : Nat → List Char → Option (List Char × List Char)
  | 0, _ => none
  | _ + 1, [] => none
  | fuel + 1, c :: rest =>
      if c = '"' then some ([], rest)
      else if c = '\\' then
        match rest with
        | [] => none
        | e :: rest2 =>
            let cont (d : Char) (after : List Char) : Option (List Char × List Char) :=
              (readJsonStringChars fuel after).map (fun sr => (d :: sr.1, sr.2))
            if e = '"' then cont '"' rest2
            else if e = '\\' then cont '\\' rest2
            else if e = '/' then cont '/' rest2
            else if e = 'b' then cont (Char.ofNat 8) rest2
            else if e = 'f' then cont (Char.ofNat 12) rest2
            else if e = 'n' then cont '\n' rest2
            else if e = 'r' then cont '\r' rest2
            else if e = 't' then cont '\t' rest2
            else if e = 'u' then
              match rest2 with
              | h1 :: h2 :: h3 :: h4 :: rest3 =>
                  match hexVal h1, hexVal h2, hexVal h3, hexVal h4 with
                  | some a, some b, some c2, some d =>
                      cont (Char.ofNat (a * 4096 + b * 256 + c2 * 16 + d)) rest3
                  | _, _, _, _ => none
              | _ => none
            else none
      else (readJsonStringChars fuel rest).map (fun sr => (c :: sr.1, sr.2))

/-- Digits prefix of the input. -/
def takeDigits : List Char → List Char × List Char
  | [] => ([], [])
  | c :: rest =>
      if c.isDigit then
        let dr := takeDigits rest
        (c :: dr.1, dr.2)
      else ([], c :: rest)

def digitsToNat (ds : List Char) : Nat :=
  ds.foldl (fun acc c => acc * 10 + (c.toNat - 48)) 0

mutual

/-- `json.loads` value reader (fuel-indexed recursive descent; each
recursive step consumes input, so fuel = input length + 1 always
suffices).  Fractional and exponent number literals are rejected: the
model keeps JSON numbers integral. -/
def readJVal : Nat → List Char → Option (JVal × List Char)
  | 0, _ => none
  | fuel + 1, input =>
      match skipWs input with
      | [] => none
      | c :: rest =>
          if c = 'n' then
            match rest with
            | 'u' :: 'l' :: 'l' :: rest2 => some (.null, rest2)
            | _ => none
          else if c = 't' then
            match rest with
            | 'r' :: 'u' :: 'e' :: rest2 => some (.bool true, rest2)
            | _ => none
          else if c = 'f' then
            match rest with
            | 'a' :: 'l' :: 's' :: 'e' :: rest2 => some (.bool false, rest2)
            | _ => none
          else if c = '"' then
            (readJsonStringChars (fuel + 1) rest).map
              (fun sr => (.str (String.mk sr.1), sr.2))
          else if c = '[' then
            match skipWs rest with
            | c2 :: rest2 =>
                if c2 = ']' then some (.arr [], rest2)
                else (readArrItems fuel (c2 :: rest2)).map
                  (fun ir => (.arr ir.1, ir.2))
            | [] => none
          else if c = Char.ofNat 123 then
            match skipWs rest with
            | c2 :: rest2 =>
                if c2 = Char.ofNat 125 then some (.obj [], rest2)
                else (readObjItems fuel (c2 :: rest2)).map
                  (fun ir => (.obj ir.1, ir.2))
            | [] => none
          else if c = '-' || c.isDigit then
            let (neg, digitsInput) :=
              if c = '-' then (true, rest) else (false, c :: rest)
            match takeDigits digitsInput with
            | ([], _) => none
            | (ds, after) =>
                match after with
                | a :: _ =>
                    if a = '.' || a = 'e' || a = 'E' then none
                    else
                      let n : Int := digitsToNat ds
                      some (.num (if neg then -n else n), after)
                | [] =>
                    let n : Int := digitsToNat ds
                    some (.num (if neg then -n else n), after)
          else none

/-- Comma-separated array items (at least one), then `]`. -/
def readArrItems : Nat → List Char → Option (List JVal × List Char)
  | 0, _ => none
  | fuel + 1, input => do
      let (v, rest) ← readJVal fuel input
      match skipWs rest with
      | c :: rest2 =>
          if c = ',' then
            (readArrItems fuel rest2).map (fun ir => (v :: ir.1, ir.2))
          else if c = ']' then some ([v], rest2)
          else none
      | [] => none

/-- Comma-separated `"key": value` object items (at least one), then the
closing brace. -/
def readObjItems : Nat → List Char →
    Option (List (String × JVal) × List Char)
  | 0, _ => none
  | fuel + 1, input =>
      match skipWs input with
      | c :: rest =>
          if c = '"' then do
            let (ks, rest2) ← readJsonStringChars (fuel + 1) rest
            match skipWs rest2 with
            | c2 :: rest3 =>
                if c2 = ':' then do
                  let (v, rest4) ← readJVal fuel rest3
                  match skipWs rest4 with
                  | c3 :: rest5 =>
                      if c3 = ',' then
                        (readObjItems fuel rest5).map
                          (fun ir => ((String.mk ks, v) :: ir.1, ir.2))
                      else if c3 = Char.ofNat 125 then
                        some ([(String.mk ks, v)], rest5)
                      else none
                  | [] => none
                else none
            | [] => none
          else none
      | [] => none

end

/-- When arrays and objects are read, the top-level items are collected
as a plain `JVal` list: `json.loads(s)`, `none` on any error. -/
def jsonLoads (s : String) : Option JVal :=
  match readJVal (s.length + 1) s.data with
  | some (v, rest) => if (skipWs rest).isEmpty then some v else none
  | none => none

/-! ## SHA-256 (`hashlib.sha256(raw.encode("utf-8")).hexdigest()`),
modelled over `Nat` with explicit reduction modulo `2^32`. -/

/-- UTF-8 bytes of one character. -/
def utf8Char (c : Char) : List Nat :=
  let n := c.toNat
  if n < 128 then [n]
  else if n < 2048 then
    [192 + n / 64, 128 + n % 64]
  else if n < 65536 then
    [224 + n / 4096, 128 + n / 64 % 64, 128 + n % 64]
  else
    [240 + n / 262144, 128 + n / 4096 % 64, 128 + n / 64 % 64, 128 + n % 64]

/-- `s.encode("utf-8")` as a byte list. -/
def utf8Encode (s : String) : List Nat :=
  s.data.flatMap utf8Char

def w32 (n : Nat) : Nat := n % 4294967296

def rotr32 (n x : Nat) : Nat := w32 ((x >>> n) ||| (x <<< (32 - n)))

def beBytes : Nat → Nat → List Nat
  | 0, _ => []
  | k + 1, n => beBytes k (n / 256) ++ [n % 256]

/-- SHA-256 round constants (FIPS 180-4, here as decimal words). -/
def sha256K : List Nat :=
  [1116352408, 1899447441, 3049323471, 3921009573, 961987163,
   1508970993, 2453635748, 2870763221, 3624381080, 310598401,
   607225278, 1426881987, 1925078388, 2162078206, 2614888103,
   3248222580, 3835390401, 4022224774, 264347078, 604807628,
   770255983, 1249150122, 1555081692, 1996064986, 2554220882,
   2821834349, 2952996808, 3210313671, 3336571891, 3584528711,
   113926993, 338241895, 666307205, 773529912, 1294757372,
   1396182291, 1695183700, 1986661051, 2177026350, 2456956037,
   2730485921, 2820302411, 3259730800, 3345764771, 3516065817,
   3600352804, 4094571909, 275423344, 430227734, 506948616,
   659060556, 883997877, 958139571, 1322822218, 1537002063,
   1747873779, 1955562222, 2024104815, 2227730452, 2361852424,
   2428436474, 2756734187, 3204031479, 3329325298]

/-- SHA-256 initial hash state (decimal words). -/
def sha256H0 : List Nat :=
  [1779033703, 3144134277, 1013904242, 2773480762,
   1359893119, 2600822924, 528734635, 1541459225]

/-- Message padding: a `0x80` byte, zeros to 56 mod 64, then the bit
length as 8 big-endian bytes. -/
def sha256Pad (msg : List Nat) : List Nat :=
  let len := msg.length
  msg ++ [0x80] ++ List.replicate ((119 - len % 64) % 64) 0 ++ beBytes 8 (8 * len)

/-- Split the padded message into 64-byte blocks. -/
def chunks64 : List Nat → List (List Nat)
  | [] => []
  | b :: bs => (b :: bs).take 64 :: chunks64 ((b :: bs).drop 64)
termination_by l => l.length
decreasing_by
  simp [List.length_drop]
  omega

/-- 4 big-endian bytes at a time into 32-bit words. -/
def bytesToWords : List Nat → List Nat
  | b0 :: b1 :: b2 :: b3 :: rest =>
      (b0 * 16777216 + b1 * 65536 + b2 * 256 + b3) :: bytesToWords rest
  | _ => []

/-- Message-schedule extension of the 16 block words to 64 words. -/
def sha256Schedule (ws : List Nat) : List Nat :=
  (List.range 48).foldl
    (fun w i =>
      let j := i + 16
      let x15 := w.getD (j - 15) 0
      let x2 := w.getD (j - 2) 0
      let s0 := (rotr32 7 x15) ^^^ (rotr32 18 x15) ^^^ (x15 >>> 3)
      let s1 := (rotr32 17 x2) ^^^ (rotr32 19 x2) ^^^ (x2 >>> 10)
      w ++ [w32 (w.getD (j - 16) 0 + s0 + w.getD (j - 7) 0 + s1)])
    ws

/-- One compression round. -/
def sha256Round (st : List Nat) (kw : Nat) : List Nat :=
  match st with
  | [a, b, c, d, e, f, g, h] =>
      let s1 := (rotr32 6 e) ^^^ (rotr32 11 e) ^^^ (rotr32 25 e)
      let ch := (e &&& f) ^^^ ((4294967295 - e) &&& g)
      let t1 := w32 (h + s1 + ch + kw)
      let s0 := (rotr32 2 a) ^^^ (rotr32 13 a) ^^^ (rotr32 22 a)
      let mj := (a &&& b) ^^^ (a &&& c) ^^^ (b &&& c)
      let t2 := w32 (s0 + mj)
      [w32 (t1 + t2), a, b, c, w32 (d + t1), e, f, g]
  | other => other

/-- Compress one 64-byte block into the running state. -/
def sha256Block (h : List Nat) (block : List Nat) : List Nat :=
  let w := sha256Schedule (bytesToWords block)
  let kw := sha256K.zipWith (fun k x => w32 (k + x)) w
  let st := kw.foldl sha256Round h
  (h.zip st).map (fun p => w32 (p.1 + p.2))

/-- Hex digest of a byte message. -/
def sha256Hex (msg : List Nat) : String :=
  let final := (chunks64 (sha256Pad msg)).foldl sha256Block sha256H0
  String.join (final.map (natToHex 8))

/-! ## Remote source model.

src/app/services/data_source_client.py and
src/app/services/record_cache.py read `url`, `method`, `headers`,
`body`, `rawBody`, `remoteMeta` from the source object, and
`build_records_cache_key` additionally reads optional `id` / `remoteId`
attributes through `getattr(..., None)` (its `remote_source` parameter
is typed `Any`). -/

structure RemoteSource where
  url : Option String := none
  method : Option String := none
  headers : Option (List (String × String)) := none
  body : Option JVal := none
  rawBody : Option String := none
  remoteMeta : Option JVal := none
  id : Option String := none
  remoteId : Option String := none

/-- One fan-out unit (`RequestPayload` of data_source_client.py). -/
structure RequestPayload where
  body : JVal
  params : Option (List (String × JVal))

/-- `normalize_remote_body` (data_source_client.py lines 42-53):
`body or {}`, merge of `rawBody` JSON when the body is empty (keeping
the raw string when `json.loads` fails), and removal of the internal
`__joins` marker from dict bodies. -/
def normalize_remote_body (rs : RemoteSource) : JVal :=
  let body0 : JVal :=
    match rs.body with
    | some b => if b.truthy then b else .obj []
    | none => .obj []
  let body1 : JVal :=
    if !body0.truthy then
      match rs.rawBody with
      | some raw =>
          if raw ≠ "" then (jsonLoads raw).getD (.str raw) else body0
      | none => body0
    else body0
  match body1 with
  | .obj d => .obj (dPop d "__joins")
  | other => other

/-- `_build_request_payloads_from_params` (lines 75-91). -/
def build_request_payloads_from_params
    (body : List (String × JVal)) (params_list : List JVal) :
    List RequestPayload :=
  if params_list.isEmpty then []
  else
    let base_body := dPop (dPop body "params") "requests"
    params_list.filterMap (fun entry =>
      match entry with
      | .obj e => some ⟨.obj (dSet base_body "params" (.obj e)), some e⟩
      | _ => none)

/-- `_build_request_payloads_from_requests` (lines 94-129). -/
def build_request_payloads_from_requests
    (body : List (String × JVal)) (requests_list : List JVal) :
    List RequestPayload :=
  if requests_list.isEmpty then []
  else
    let base_body := dPop body "requests"
    requests_list.filterMap (fun entry =>
      match entry with
      | .obj e =>
          let step1 : List (String × JVal) × Option (List (String × JVal)) :=
            match dGet e "body" with
            | some (.obj entry_body) =>
                let cleaned_body := dPop entry_body "__joins"
                let rb := dUpdate base_body cleaned_body
                match dGet cleaned_body "params" with
                | some (.obj p) => (rb, some p)
                | _ => (rb, none)
            | _ => (base_body, none)
          let step2 : List (String × JVal) × Option (List (String × JVal)) :=
            if dHasKey e "params" then
              let entry_params := jGetD e "params"
              let rb := dSet step1.1 "params" entry_params
              match entry_params with
              | .obj p => (rb, some p)
              | _ => (rb, step1.2)
            else step1
          let request_params : Option (List (String × JVal)) :=
            match step2.2 with
            | some p => some p
            | none =>
                match dGet step2.1 "params" with
                | some (.obj p) => some p
                | _ => none
          some ⟨.obj step2.1, request_params⟩
      | _ => none)

/-- `build_request_payloads` (lines 56-72): fan out over a `requests`
list, else a `params` list (all-dict entries only), else a single
payload whose params are the body's dict-valued `params` field. -/
def build_request_payloads (body : JVal) : List RequestPayload :=
  match body with
  | .obj d =>
      match dGet d "requests" with
      | some (.arr requests) => build_request_payloads_from_requests d requests
      | _ =>
          match dGet d "params" with
          | some (.arr params_list) =>
              if params_list.any (fun entry => !entry.isObj) then
                [⟨.obj d, none⟩]
              else build_request_payloads_from_params d params_list
          | some (.obj p) => [⟨.obj d, some p⟩]
          | _ => [⟨.obj d, none⟩]
  | other => [⟨other, none⟩]

/-- ASCII alphanumeric (the character class of `_CAMEL_SPLIT_RE`). -/
def isAlnumAscii (c : Char) : Bool :=
  ('0' ≤ c && c ≤ '9') || ('A' ≤ c && c ≤ 'Z') || ('a' ≤ c && c ≤ 'z')

/-- Maximal alphanumeric runs of a string — the non-empty parts of
`_CAMEL_SPLIT_RE.split(value)`. -/
def alnumRunsAux : List Char → List Char → List String
  | [], cur => if cur.isEmpty then [] else [String.mk cur.reverse]
  | c :: rest, cur =>
      if isAlnumAscii c then alnumRunsAux rest (c :: cur)
      else
        (if cur.isEmpty then [] else [String.mk cur.reverse]) ++
          alnumRunsAux rest []

/-- `f"{part[:1].upper()}{part[1:]}"` (ASCII uppercase). -/
def capFirst (s : String) : String :=
  match s.data with
  | [] => ""
  | c :: rest => String.mk (c.toUpper :: rest)

/-- `_to_camel_case` (lines 132-138). -/
def to_camel_case (value : String) : String :=
  match alnumRunsAux value.data [] with
  | [] => ""
  | [part] => capFirst part
  | parts => String.join (parts.map capFirst)

/-- `_build_request_metadata` (lines 141-150): `request<CamelKey>`
fields from the payload params; `None` and empty params give no
metadata. -/
def build_request_metadata (params : Option (List (String × JVal))) :
    List (String × JVal) :=
  match params with
  | none => []
  | some p =>
      if p.isEmpty then []
      else
        p.foldl
          (fun metadata kv =>
            let camel := to_camel_case kv.1
            if camel = "" then metadata
            else dSet metadata ("request" ++ camel) kv.2)
          []

/-- `_apply_request_metadata` (lines 153-161), as a pure map: each dict
record gets the metadata fields it does not already define
(`setdefault`); non-dict records and, when the metadata is empty, all
records are untouched. -/
def apply_request_metadata (records : List JVal)
    (params : Option (List (String × JVal))) : List JVal :=
  let metadata := build_request_metadata params
  if metadata.isEmpty then records
  else
    records.map (fun record =>
      match record with
      | .obj m =>
          .obj (metadata.foldl (fun acc kv => dSetDefault acc kv.1 kv.2) m)
      | other => other)

/-- `_extract_records` (lines 164-185), without the logging: compute
`result = data.get("result") or data.get("data") or data`, then return
the first match among `result["records"]` (list), `result` (list),
`data["records"]` (list), `data` (list), else `[]`. -/
def extract_records (data : JVal) : List JVal :=
  match data with
  | .obj d =>
      let result := pyOr (jGetD d "result") (pyOr (jGetD d "data") (.obj d))
      let fromResultRecords : Option (List JVal) :=
        match result with
        | .obj rd =>
            match dGet rd "records" with
            | some (.arr records) => some records
            | _ => none
        | _ => none
      match fromResultRecords with
      | some records => records
      | none =>
          match result with
          | .arr records => records
          | _ =>
              match dGet d "records" with
              | some (.arr records) => records
              | _ => []
  | .arr records => records
  | _ => []

/-- `_looks_like_request_payload` (lines 188-191). -/
def looks_like_request_payload (candidate : JVal) : Bool :=
  match candidate with
  | .obj d => dHasKey d "method" || dHasKey d "params" || dHasKey d "requests"
  | _ => false

/-- `_looks_like_batch_results` (lines 194-200). -/
def looks_like_batch_results (candidate : JVal) : Bool :=
  match candidate with
  | .arr items =>
      !items.isEmpty &&
        items.all (fun item =>
          match item with
          | .obj d => dHasKey d "ok" && dHasKey d "data"
          | _ => false)
  | _ => false

/-! ## Results files (`_load_results_file`).  POSIX path semantics:
`os.path.abspath` is join-with-cwd plus lexical normalization (it does
not resolve symlinks).  The file system is an explicit parameter
`fs : String → Option JVal`: `fs path` is the parsed JSON content of
`path`, with `none` for `OSError` / `json.JSONDecodeError`. -/

def isAbsPath (p : String) : Bool := strStartsWith p "/"

/-- `os.path.join(a, b)` for the shapes used here. -/
def pathJoin (a b : String) : String :=
  if isAbsPath b then b
  else if a = "" then b
  else if strEndsWith a "/" then a ++ b
  else a ++ "/" ++ b

/-- Lexical normalization of `/`-separated segments: drop empty and `.`
segments, let `..` consume the previous segment (or vanish at the root
of an absolute path). -/
def normSegsAux : List String → List String → List String
  | [], acc => acc.reverse
  | s :: rest, acc =>
      if s = "" || s = "." then normSegsAux rest acc
      else if s = ".." then
        match acc with
        | [] => normSegsAux rest []
        | _ :: acc' => normSegsAux rest acc'
      else normSegsAux rest (s :: acc)

/-- `os.path.abspath(p)` = `normpath(join(cwd, p))`, for an absolute
`cwd`. -/
def absPath (cwd p : String) : String :=
  let joined := pathJoin cwd p
  "/" ++ String.intercalate "/" (normSegsAux (splitOnSlash joined) [])

/-- `_RESULTS_DIR = os.path.join(os.getcwd(), "batch_results")`. -/
def resultsDir (cwd : String) : String := pathJoin cwd "batch_results"

/-- `_load_results_file` (lines 203-217): empty refs give `None`;
relative refs are joined to the cwd; a target whose absolute
normalized path is neither the results directory itself nor inside it
(`startswith(base_dir + os.sep)`) gives `None` without touching the
file system; otherwise the file is opened and parsed (`fs`). -/
def load_results_file (fs : String → Option JVal) (cwd path_value : String) :
    Option JVal :=
  if path_value = "" then none
  else
    let path := if isAbsPath path_value then path_value else pathJoin cwd path_value
    let base_dir := absPath cwd (resultsDir cwd)
    let target := absPath cwd path
    if target ≠ base_dir && !(strStartsWith target (base_dir ++ "/")) then none
    else fs target

/-- `_extract_batch_records` (lines 220-235): items that are dicts with
truthy `ok` and non-`None` `data` contribute `_extract_records(data)`
(with the item's dict-valued, non-empty `params` projected on as
request metadata); every other item is skipped. -/
def extract_batch_records (results : List JVal) : List JVal :=
  results.foldl
    (fun records item =>
      match item with
      | .obj d =>
          if !(jGetD d "ok").truthy then records
          else
            match dGet d "data" with
            | none => records
            | some .null => records
            | some data =>
                let extracted := extract_records data
                let params : Option (List (String × JVal)) :=
                  match dGet d "params" with
                  | some (.obj p) => some p
                  | _ => none
                let withMeta :=
                  match params with
                  | some p =>
                      if p.isEmpty then extracted
                      else apply_request_metadata extracted (some p)
                  | none => extracted
                records ++ withMeta
      | _ => records)
    []

/-- `_extract_local_records_from_payload` (lines 271-280). -/
def extract_local_records_from_payload (payload : JVal) : Bool × List JVal :=
  let fromDict : Option (List JVal) :=
    match payload with
    | .obj d =>
        match dGet d "results" with
        | some (.arr results) => some (extract_batch_records results)
        | _ =>
            if dHasKey d "records" || dHasKey d "result" || dHasKey d "data" then
              some (extract_records payload)
            else none
    | _ => none
  match fromDict with
  | some records => (true, records)
  | none =>
      match payload with
      | .arr items =>
          if looks_like_batch_results (.arr items) then
            (true, extract_batch_records items)
          else (false, [])
      | _ => (false, [])

/-- The body of the candidate loop of `_extract_local_records`
(lines 246-266): `some records` when the candidate resolves locally. -/
def local_from_candidate (fs : String → Option JVal) (cwd : String)
    (candidate : JVal) : Option (List JVal) :=
  let dictPart : Option (List JVal) :=
    match candidate with
    | .obj d =>
        let refVal := pyOr (jGetD d "resultsFileRef") (jGetD d "results_file_ref")
        let fromFile : Option (List JVal) :=
          match refVal with
          | .str ref =>
              match load_results_file fs cwd ref with
              | some file_payload =>
                  match extract_local_records_from_payload file_payload with
                  | (true, records) => some records
                  | (false, _) => none
              | none => none
          | _ => none
        match fromFile with
        | some records => some records
        | none =>
            match dGet d "results" with
            | some (.arr results) => some (extract_batch_records results)
            | _ =>
                if dHasKey d "records" then some (extract_records candidate)
                else if (dHasKey d "result" || dHasKey d "data") &&
                    !looks_like_request_payload candidate then
                  some (extract_records candidate)
                else none
    | _ => none
  match dictPart with
  | some records => some records
  | none =>
      match candidate with
      | .arr items =>
          if looks_like_batch_results (.arr items) then
            some (extract_batch_records items)
          else none
      | _ => none

/-- First candidate that resolves locally. -/
def firstLocal (fs : String → Option JVal) (cwd : String) :
    List JVal → Option (List JVal)
  | [] => none
  | c :: rest =>
      match local_from_candidate fs cwd c with
      | some records => some records
      | none => firstLocal fs cwd rest

/-- `_extract_local_records` (lines 238-268): candidates are the
normalized body (when a dict or list) and then `remoteMeta` (when a
dict); the first candidate that matches wins. -/
def extract_local_records (fs : String → Option JVal) (cwd : String)
    (rs : RemoteSource) : Bool × List JVal :=
  let body := normalize_remote_body rs
  let candidates :=
    (if body.isStructured then [body] else []) ++
      (match rs.remoteMeta with
       | some (.obj m) => [JVal.obj m]
       | _ => [])
  match firstLocal fs cwd candidates with
  | some records => (true, records)
  | none => (false, [])

/-- `_build_mock_records` (lines 27-39): the fixed synthetic record
set for `mock://` sources. -/
def build_mock_records : List JVal :=
  [.obj [("cls", .str "A"), ("year", .num 2024), ("value", .num 10), ("count", .num 1)],
   .obj [("cls", .str "A"), ("year", .num 2024), ("value", .num 20), ("count", .num 2)],
   .obj [("cls", .str "B"), ("year", .num 2024), ("value", .num 5), ("count", .num 3)],
   .obj [("cls", .str "B"), ("year", .num 2023), ("value", .num 15), ("count", .num 4)]]

/-- One outgoing call to `request_json` (upstream_client is outside the
repository; the transport is the `net` parameter below).  The timeout
is the fixed `30.0` of the call site and carries no information. -/
structure HttpRequest where
  method : String
  url : String
  headers : List (String × String)
  params : Option JVal
  jsonBody : Option JVal

/-- Lines 330-347 of `load_records`: how one fan-out payload is turned
into an HTTP request.  A GET with a structured (dict or list) body is
issued as POST with the body as JSON and the `X-HTTP-Method-Override`
and `Content-Type` headers added when not already present; otherwise
the method is kept, a GET sends a dict body as query params, and
`json_body` is only attached when the issued method is not GET. -/
def build_payload_request (method full_url : String)
    (headers : List (String × String)) (p : RequestPayload) : HttpRequest :=
  let json_body : Option JVal := if p.body.isStructured then some p.body else none
  let params0 : Option JVal :=
    if method = "GET" && p.body.isObj then some p.body else none
  if method = "GET" && json_body.isSome then
    let request_headers :=
      sSetDefault (sSetDefault headers "X-HTTP-Method-Override" "GET")
        "Content-Type" "application/json"
    { method := "POST", url := full_url, headers := request_headers,
      params := none, jsonBody := json_body }
  else
    { method := method, url := full_url, headers := headers,
      params := params0,
      jsonBody := if method ≠ "GET" then json_body else none }

/-- `SERVICE360_BASE_URL.rstrip("/")`. -/
def rstripSlash (s : String) : String :=
  String.mk ((s.data.reverse.dropWhile (fun c => c = '/')).reverse)

/-- `load_records` (lines 283-355).  External collaborators are
parameters: `bfu` is `build_full_url` (upstream_client, outside the
repository), `net` is the `request_json` transport, `fs` the file
system, `cwd` the working directory and `base` the
`SERVICE360_BASE_URL` environment value.  The result also carries the
trace of HTTP requests issued, in order, so "performs no network
request" is expressible. -/
def load_records (bfu : String → String → String)
    (net : HttpRequest → JVal) (fs : String → Option JVal)
    (cwd base : String) (rs : RemoteSource) : List JVal × List HttpRequest :=
  match extract_local_records fs cwd rs with
  | (true, local_records) => (local_records, [])
  | (false, _) =>
      let method := strToUpper (pyStrOr rs.method "POST")
      let url := pyStrip (pyStrOr rs.url "")
      let base_url := rstripSlash base
      if url = "" then ([], [])
      else
        let is_mock := strStartsWith url "mock://"
        let full_url := if is_mock then url else bfu base_url url
        let headers := rs.headers.getD []
        let body := normalize_remote_body rs
        let request_payloads := build_request_payloads body
        if request_payloads.isEmpty then ([], [])
        else
          request_payloads.foldl
            (fun acc p =>
              if is_mock then
                (acc.1 ++ apply_request_metadata build_mock_records p.params,
                 acc.2)
              else
                let req := build_payload_request method full_url headers p
                let data := net req
                (acc.1 ++ apply_request_metadata (extract_records data) p.params,
                 acc.2 ++ [req]))
            ([], [])

/-! ## Record cache (src/app/services/record_cache.py).

`_STORE` is a CPython dict `key -> (created_at, value)`: an
insertion-ordered association list with unique keys.  Timestamps are
modelled as `Int` (`time.time()` differences behave like real
subtraction). -/

/-- The store: insertion-ordered entries `key ↦ (createdAt, value)`. -/
abbrev CacheStore (α : Type) := List (String × Int × α)

/-- `_STORE.get(key)`. -/
def storeGet {α : Type} (s : CacheStore α) (k : String) : Option (Int × α) :=
  match s with
  | [] => none
  | (k', e) :: rest => if k' = k then some e else storeGet rest k

/-- `_STORE.pop(key, None)` (a dict holds a key at most once). -/
def storeRemove {α : Type} (s : CacheStore α) (k : String) : CacheStore α :=
  match s with
  | [] => []
  | (k', e) :: rest => if k' = k then rest else (k', e) :: storeRemove rest k

/-- `_STORE[key] = entry`: in-place update keeping the original
position for an existing key, append for a new key. -/
def storeSet {α : Type} (s : CacheStore α) (k : String) (e : Int × α) :
    CacheStore α :=
  match s with
  | [] => [(k, e)]
  | (k', e') :: rest =>
      if k' = k then (k, e) :: rest else (k', e') :: storeSet rest k e

/-- `min(_STORE.items(), key=lambda item: item[1][0])`: the first entry
with minimal `createdAt` in iteration (= insertion) order; `none` for
the empty store, where Python `min` raises `ValueError`. -/
def oldestEntry {α : Type} (s : CacheStore α) : Option (String × Int × α) :=
  match s with
  | [] => none
  | e :: rest =>
      some (rest.foldl (fun best cur => if cur.2.1 < best.2.1 then cur else best) e)

/-- `get_cached_records` (record_cache.py lines 15-25), at clock value
`now`: returns the cached value and the store after the call.  An
entry older than the TTL is popped and reported absent. -/
def get_cached_records {α : Type} (ttl now : Int) (key : String)
    (s : CacheStore α) : Option α × CacheStore α :=
  if key = "" then (none, s)
  else
    match storeGet s key with
    | none => (none, s)
    | some (created_at, value) =>
        if now - created_at > ttl then (none, storeRemove s key)
        else (some value, s)

/-- `set_cached_records` (lines 28-34), at clock value `now` with
capacity `max_items`: no-op for an empty key; when the store has
reached capacity the single oldest-by-`createdAt` entry is popped
first; then the entry is written.  `none` models the `ValueError` that
`min` raises on an empty store (reachable only with `max_items = 0`). -/
def set_cached_records {α : Type} (max_items : Nat) (now : Int)
    (key : String) (value : α) (s : CacheStore α) : Option (CacheStore α) :=
  if key = "" then some s
  else if max_items ≤ s.length then
    match oldestEntry s with
    | none => none
    | some oldest => some (storeSet (storeRemove s oldest.1) key (now, value))
  else some (storeSet s key (now, value))

/-! ## Cache fingerprint (`build_records_cache_key`, lines 43-78). -/

/-- `_safe_json_payload` (lines 37-40) on an optional string
(`url` / `method` can be `None`): strings and `None` are JSON types,
so they pass through. -/
def optStrJ (s : Option String) : JVal :=
  match s with
  | some v => .str v
  | none => .null

/-- `template_id or getattr(rs, "id", None) or getattr(rs, "remoteId",
None) or ""` — an empty/None template id falls back to the source's
`id`, then `remoteId`, then `""`. -/
def cacheTemplateId (template_id : String) (rs : Option RemoteSource) : String :=
  if template_id ≠ "" then template_id
  else
    match rs with
    | some r => pyStrOr r.id (pyStrOr r.remoteId "")
    | none => ""

/-- The `remoteMeta` projection: the five keys of interest, keeping
only non-`None` values. -/
def remoteMetaKeySubset (m : List (String × JVal)) : List (String × JVal) :=
  ["jobId", "batchJobId", "batchId", "resultsFileRef", "results_file_ref"].filterMap
    (fun k =>
      match dGet m k with
      | some .null => none
      | some v => some (k, v)
      | none => none)

/-- `remote_meta_key` of lines 58-65: the subset projection when the
meta is a dict, else `None`. -/
def remote_meta_key_of (remote_meta : Option JVal) : JVal :=
  match remote_meta with
  | some (.obj m) => .obj (remoteMetaKeySubset m)
  | _ => .null

/-- The canonical payload that is serialized and hashed (lines 48-76).
Every `JVal` is a JSON type, so `_safe_json_payload` is the identity on
the dict/list/str components here. -/
def cacheKeyPayload (template_id : String) (rs : Option RemoteSource)
    (joins : JVal) : JVal :=
  let body :=
    match rs with
    | some r => normalize_remote_body r
    | none => .obj []
  let url := rs.bind (fun r => r.url)
  let method := rs.bind (fun r => r.method)
  let remote_meta_key : JVal :=
    remote_meta_key_of (rs.bind (fun r => r.remoteMeta))
  let request_payloads := build_request_payloads body
  let request_params :=
    request_payloads.filterMap (fun p => p.params.map JVal.obj)
  .obj
    [("templateId", .str (cacheTemplateId template_id rs)),
     ("url", optStrJ url),
     ("method", optStrJ method),
     ("remoteMetaKey", remote_meta_key),
     ("body", body),
     ("requestParams", .arr request_params),
     ("joins", joins)]

/-- `build_records_cache_key` (lines 43-78): the SHA-256 hex digest of
the canonical sorted-key JSON serialization of the payload. -/
def build_records_cache_key (template_id : String) (rs : Option RemoteSource)
    (joins : JVal) : String :=
  sha256Hex (utf8Encode (jsonDumps (cacheKeyPayload template_id rs joins)))

/-! ## Records-limit guard (src/app/main.py lines 30-37 and
src/app/services/report_view_builder.py lines 18-22; both raise — an
`HTTPException(422)` and a `ValueError` respectively — with the same
message). -/

/-- `_enforce_records_limit(count, limit, stage)`. -/
def enforce_records_limit (count : Nat) (limit : Option Int) (stage : String) :
    Except String Unit :=
  match limit with
  | none => .ok ()
  | some l =>
      if (count : Int) > l then
        .error s!"Records limit exceeded after {stage}: {count} > {l}"
      else .ok ()

/-- One checked pipeline stage, as used at the `_enforce_records_limit`
call sites (main.py lines 72-73, 85-90, 189-226, 324-361): the record
list flows through unchanged when the guard passes and the request
aborts with the guard's error when it raises. -/
def checked_stage (records : List JVal) (limit : Option Int) (stage : String) :
    Except String (List JVal) :=
  match enforce_records_limit records.length limit stage with
  | .ok _ => .ok records
  | .error e => .error e

/-! # Claims -/

/-! ## C1 — records-limit boundary at every checked stage -/

/-- C1: at every pipeline stage that checks the records ceiling
(`load_records`, `apply_joins`, cache read — the stage name is the
`stage` argument of `_enforce_records_limit`), a record count exactly
equal to the configured limit passes with the record set unchanged (no
truncation), while a count of limit + 1 aborts with the distinct
records-limit-exceeded error. -/
theorem c1_records_limit_boundary (records records' : List JVal) (n : Nat)
    (stage : String) (hn : records.length = n)
    (hn' : records'.length = n + 1) :
    checked_stage records (some (n : Int)) stage = .ok records ∧
    ∃ rest, checked_stage records' (some (n : Int)) stage =
      .error ("Records limit exceeded after " ++ rest) := by
  constructor
  · unfold checked_stage enforce_records_limit
    rw [hn]
    simp
  · unfold checked_stage enforce_records_limit
    rw [hn']
    have h : ((n + 1 : Nat) : Int) > (n : Int) := by push_cast; omega
    simp only [h, if_true, gt_iff_lt]
    exact ⟨_, rfl⟩

theorem c1_records_limit_boundary_witness :
    checked_stage [.num 1, .num 2] (some 2) "load_records" =
      .ok [.num 1, .num 2] := by
  exact (c1_records_limit_boundary [.num 1, .num 2] [.num 1, .num 2, .num 3]
    2 "load_records" rfl rfl).1

/-! ## C5 — cache get: TTL iff, expiry removal -/

theorem storeGet_empty_key {α : Type} (s : CacheStore α)
    (hwf : ∀ e ∈ s, e.1 ≠ "") : storeGet s "" = none := by
  induction s with
  | nil => rfl
  | cons e rest ih =>
      have he := hwf e (by simp)
      simp only [storeGet]
      rw [if_neg he]
      exact ih (fun e' he' => hwf e' (by simp [he']))

theorem storeGet_eq_none_of_not_mem_keys {α : Type} (s : CacheStore α)
    (k : String) (h : k ∉ s.map Prod.fst) : storeGet s k = none := by
  induction s with
  | nil => rfl
  | cons e rest ih =>
      simp only [List.map_cons, List.mem_cons, not_or] at h
      simp only [storeGet]
      rw [if_neg (fun he => h.1 he.symm)]
      exact ih h.2

/-- A store reachable through `get_cached_records` /
`set_cached_records` is a CPython dict: keys are unique and (since
`set_cached_records` refuses `""`) non-empty. -/
def storeWF {α : Type} (s : CacheStore α) : Prop :=
  (∀ e ∈ s, e.1 ≠ "") ∧ (s.map Prod.fst).Nodup

theorem storeGet_storeRemove_self {α : Type} (s : CacheStore α) (k : String)
    (hnd : (s.map Prod.fst).Nodup) : storeGet (storeRemove s k) k = none := by
  induction s with
  | nil => rfl
  | cons e rest ih =>
      simp only [List.map_cons, List.nodup_cons] at hnd
      by_cases h : e.1 = k
      · simp only [storeRemove, if_pos h]
        refine storeGet_eq_none_of_not_mem_keys rest k (fun hk => ?_)
        exact hnd.1 (h ▸ hk)
      · simp only [storeRemove, if_neg h, storeGet]
        exact ih hnd.2

/-- C5: on a well-formed store (a CPython dict with the non-empty keys
that `set_cached_records` admits), `get_cached_records` returns a value
exactly when an entry for the key exists whose age `now - createdAt`
does not exceed the TTL; a TTL-expired entry makes the call return
`none` and pop the entry, so every subsequent get misses, at any later
clock value, before any eviction sweep. -/
theorem c5_cache_get_ttl {α : Type} (ttl now : Int) (key : String)
    (s : CacheStore α) (hwf : storeWF s) :
    (∀ v : α, (get_cached_records ttl now key s).1 = some v ↔
      ∃ t, storeGet s key = some (t, v) ∧ now - t ≤ ttl) ∧
    (∀ t (v : α), storeGet s key = some (t, v) → now - t > ttl →
      get_cached_records ttl now key s = (none, storeRemove s key) ∧
      ∀ now' : Int,
        (get_cached_records ttl now' key (storeRemove s key)).1 = none) := by
  by_cases hk : key = ""
  · subst hk
    have hnone := storeGet_empty_key s hwf.1
    constructor
    · intro v
      simp [get_cached_records, hnone]
    · intro t v hsg
      rw [hnone] at hsg
      exact absurd hsg (by simp)
  · constructor
    · intro v
      simp only [get_cached_records, if_neg hk]
      cases hsg : storeGet s key with
      | none => simp
      | some e =>
          obtain ⟨t', v'⟩ := e
          by_cases hexp : now - t' > ttl
          · simp only [if_pos hexp]
            constructor
            · intro h
              exact absurd h (by simp)
            · rintro ⟨t, heq, hle⟩
              simp only [Option.some_inj, Prod.mk.injEq] at heq
              omega
          · simp only [if_neg hexp]
            constructor
            · intro h
              simp only [Option.some_inj] at h
              exact ⟨t', by rw [h], by omega⟩
            · rintro ⟨t, heq, _⟩
              simp only [Option.some_inj, Prod.mk.injEq] at heq
              simp [heq.2]
    · intro t v hsg hexp
      constructor
      · simp only [get_cached_records, if_neg hk, hsg, if_pos hexp]
      · intro now'
        simp only [get_cached_records, if_neg hk,
          storeGet_storeRemove_self s key hwf.2]

theorem c5_cache_get_ttl_witness :
    ((get_cached_records 30 10 "k" [("k", ((0 : Int), (42 : Nat)))]).1 =
      some 42) ∧
    (get_cached_records 30 100 "k" [("k", ((0 : Int), (42 : Nat)))] =
      (none, []) ∧
      (get_cached_records 30 100 "k"
        (storeRemove [("k", ((0 : Int), (42 : Nat)))] "k")).1 = none) := by
  have h := c5_cache_get_ttl (α := Nat) 30 10 "k" [("k", (0, 42))]
    ⟨by simp, by simp⟩
  have h2 := c5_cache_get_ttl (α := Nat) 30 100 "k" [("k", (0, 42))]
    ⟨by simp, by simp⟩
  refine ⟨(h.1 42).mpr ⟨0, rfl, by norm_num⟩, ?_, ?_⟩
  · exact (h2.2 0 42 rfl (by norm_num)).1
  · exact ((h2.2 0 42 rfl (by norm_num)).2 100)

/-! ## C4 — cache capacity invariant and oldest-entry eviction -/

/-- One public cache operation. -/
inductive CacheOp (α : Type) where
  | get (ttl now : Int) (key : String)
  | set (now : Int) (key : String) (value : α)

/-- Apply one operation to the store (`none` models the `ValueError`
raised by `min` on an empty store). -/
def applyCacheOp {α : Type} (max_items : Nat) (s : CacheStore α) :
    CacheOp α → Option (CacheStore α)
  | .get ttl now key => some (get_cached_records ttl now key s).2
  | .set now key value => set_cached_records max_items now key value s

/-- Run a sequence of operations from a given store. -/
def runCacheOpsFrom {α : Type} (max_items : Nat) (s : CacheStore α) :
    List (CacheOp α) → Option (CacheStore α)
  | [] => some s
  | op :: rest =>
      match applyCacheOp max_items s op with
      | some s' => runCacheOpsFrom max_items s' rest
      | none => none

/-- Run a sequence of operations from the initial empty `_STORE`. -/
def runCacheOps {α : Type} (max_items : Nat) (ops : List (CacheOp α)) :
    Option (CacheStore α) :=
  runCacheOpsFrom max_items [] ops

theorem storeRemove_length_le {α : Type} (s : CacheStore α) (k : String) :
    (storeRemove s k).length ≤ s.length := by
  induction s with
  | nil => simp [storeRemove]
  | cons e rest ih =>
      simp only [storeRemove]
      by_cases h : e.1 = k
      · simp [h]
      · simp only [if_neg h, List.length_cons]
        omega

theorem storeRemove_length_of_mem {α : Type} (s : CacheStore α)
    (e : String × Int × α) (he : e ∈ s) :
    (storeRemove s e.1).length + 1 = s.length := by
  induction s with
  | nil => cases he
  | cons e' rest ih =>
      simp only [storeRemove]
      by_cases h : e'.1 = e.1
      · simp [h]
      · rcases List.mem_cons.mp he with heq | hmem
        · exact absurd (congrArg Prod.fst heq.symm) h
        · simp only [if_neg h, List.length_cons]
          rw [ih hmem]

theorem storeSet_length_le {α : Type} (s : CacheStore α) (k : String)
    (e : Int × α) : (storeSet s k e).length ≤ s.length + 1 := by
  induction s with
  | nil => simp [storeSet]
  | cons e' rest ih =>
      simp only [storeSet]
      by_cases h : e'.1 = k
      · simp [h]
      · simp only [if_neg h, List.length_cons]
        omega

theorem oldestEntry_spec {α : Type} (s : CacheStore α)
    (e : String × Int × α) (h : oldestEntry s = some e) :
    e ∈ s ∧ ∀ e' ∈ s, e.2.1 ≤ e'.2.1 := by
  match s with
  | [] => cases h
  | e0 :: rest =>
      simp only [oldestEntry, Option.some_inj] at h
      subst h
      have key : ∀ (l : List (String × Int × α)) (init : String × Int × α),
          (l.foldl (fun best cur => if cur.2.1 < best.2.1 then cur else best)
              init) = init ∨
            (l.foldl (fun best cur => if cur.2.1 < best.2.1 then cur else best)
              init) ∈ l := by
        intro l
        induction l with
        | nil => intro init; left; rfl
        | cons c cs ih =>
            intro init
            simp only [List.foldl_cons]
            rcases ih (if c.2.1 < init.2.1 then c else init) with h1 | h1
            · rw [h1]
              by_cases hc : c.2.1 < init.2.1
              · right
                simp [hc]
              · left
                simp [hc]
            · right
              exact List.mem_cons_of_mem c h1
      have keymin : ∀ (l : List (String × Int × α)) (init : String × Int × α),
          (l.foldl (fun best cur => if cur.2.1 < best.2.1 then cur else best)
              init).2.1 ≤ init.2.1 ∧
            ∀ x ∈ l,
              (l.foldl (fun best cur => if cur.2.1 < best.2.1 then cur else best)
                init).2.1 ≤ x.2.1 := by
        intro l
        induction l with
        | nil => intro init; exact ⟨le_refl _, by simp⟩
        | cons c cs ih =>
            intro init
            simp only [List.foldl_cons]
            obtain ⟨ih1, ih2⟩ := ih (if c.2.1 < init.2.1 then c else init)
            constructor
            · refine le_trans ih1 ?_
              by_cases hc : c.2.1 < init.2.1
              · simp [hc]
                omega
              · simp [hc]
            · intro x hx
              rcases List.mem_cons.mp hx with rfl | hmem
              · refine le_trans ih1 ?_
                by_cases hc : x.2.1 < init.2.1
                · simp [hc]
                · simp [hc]
                  omega
              · exact ih2 x hmem
      constructor
      · rcases key rest e0 with h1 | h1
        · rw [h1]; exact List.mem_cons_self _ _
        · exact List.mem_cons_of_mem e0 h1
      · intro e' he'
        obtain ⟨k1, k2⟩ := keymin rest e0
        rcases List.mem_cons.mp he' with rfl | hmem
        · exact k1
        · exact k2 e' hmem

theorem oldestEntry_isSome {α : Type} (s : CacheStore α) (hne : s ≠ []) :
    ∃ e, oldestEntry s = some e := by
  cases s with
  | nil => exact absurd rfl hne
  | cons e0 rest => exact ⟨_, rfl⟩

theorem set_cached_records_bound {α : Type} (max_items : Nat)
    (hpos : 0 < max_items) (s : CacheStore α) (hs : s.length ≤ max_items)
    (now : Int) (key : String) (value : α) :
    ∃ s', set_cached_records max_items now key value s = some s' ∧
      s'.length ≤ max_items := by
  by_cases hk : key = ""
  · exact ⟨s, by simp [set_cached_records, hk], hs⟩
  · by_cases hcap : max_items ≤ s.length
    · have hlen : s.length = max_items := le_antisymm hs hcap
      have hne : s ≠ [] := by
        intro h0
        rw [h0] at hlen
        simp at hlen
        omega
      obtain ⟨e, he⟩ := oldestEntry_isSome s hne
      refine ⟨storeSet (storeRemove s e.1) key (now, value), ?_, ?_⟩
      · simp [set_cached_records, hk, hcap, he]
      · have h1 := storeRemove_length_of_mem s e (oldestEntry_spec s e he).1
        have h2 := storeSet_length_le (storeRemove s e.1) key (now, value)
        omega
    · refine ⟨storeSet s key (now, value), ?_, ?_⟩
      · simp [set_cached_records, hk, hcap]
      · have := storeSet_length_le s key (now, value)
        omega

theorem get_cached_records_snd_length {α : Type} (ttl now : Int)
    (key : String) (s : CacheStore α) :
    (get_cached_records ttl now key s).2.length ≤ s.length := by
  by_cases hk : key = ""
  · simp [get_cached_records, hk]
  · simp only [get_cached_records, if_neg hk]
    cases hsg : storeGet s key with
    | none => simp
    | some e =>
        obtain ⟨t, v⟩ := e
        by_cases hexp : now - t > ttl
        · simp only [if_pos hexp]
          exact storeRemove_length_le s key
        · simp [hexp]

theorem runCacheOpsFrom_bound {α : Type} (max_items : Nat)
    (hpos : 0 < max_items) (ops : List (CacheOp α)) :
    ∀ s : CacheStore α, s.length ≤ max_items →
      ∃ s', runCacheOpsFrom max_items s ops = some s' ∧
        s'.length ≤ max_items := by
  induction ops with
  | nil => exact fun s hs => ⟨s, rfl, hs⟩
  | cons op rest ih =>
      intro s hs
      cases op with
      | get ttl now key =>
          have hlen := get_cached_records_snd_length ttl now key s
          obtain ⟨s', h1, h2⟩ := ih _ (le_trans hlen hs)
          refine ⟨s', ?_, h2⟩
          simp only [runCacheOpsFrom, applyCacheOp]
          exact h1
      | set now key value =>
          obtain ⟨s1, hset, hb⟩ :=
            set_cached_records_bound max_items hpos s hs now key value
          obtain ⟨s', h1, h2⟩ := ih s1 hb
          refine ⟨s', ?_, h2⟩
          simp only [runCacheOpsFrom, applyCacheOp, hset]
          exact h1

/-- C4: with a positive configured capacity, (a) every sequence of
get/set operations from the initial empty store succeeds and keeps the
store size at most the capacity, and (b) a `set_cached_records` on a
store at capacity first evicts exactly one entry — one holding the
minimal (oldest) insertion timestamp — and then writes the new entry
into the remaining store. -/
theorem c4_cache_capacity_and_eviction {α : Type} (max_items : Nat)
    (hpos : 0 < max_items) :
    (∀ ops : List (CacheOp α), ∃ s',
        runCacheOps max_items ops = some s' ∧ s'.length ≤ max_items) ∧
    (∀ (s : CacheStore α) (now : Int) (key : String) (value : α),
        s.length = max_items → key ≠ "" →
        ∃ e, e ∈ s ∧ (∀ e' ∈ s, e.2.1 ≤ e'.2.1) ∧
          set_cached_records max_items now key value s =
            some (storeSet (storeRemove s e.1) key (now, value))) := by
  constructor
  · intro ops
    exact runCacheOpsFrom_bound max_items hpos ops [] (by simp)
  · intro s now key value hlen hk
    have hcap : max_items ≤ s.length := le_of_eq hlen.symm
    have hne : s ≠ [] := by
      intro h0
      rw [h0] at hlen
      simp at hlen
      omega
    obtain ⟨e, he⟩ := oldestEntry_isSome s hne
    obtain ⟨hmem, hmin⟩ := oldestEntry_spec s e he
    exact ⟨e, hmem, hmin, by simp [set_cached_records, hk, hcap, he]⟩

theorem c4_cache_capacity_and_eviction_witness :
    (∃ s', runCacheOps (α := Nat) 2
        [.set 0 "a" 1, .set 1 "b" 2, .set 2 "c" 3] = some s' ∧
      s'.length ≤ 2) ∧
    (∃ e, e ∈ ([("a", ((0 : Int), (1 : Nat))), ("b", (1, 2))] : CacheStore Nat) ∧
      (∀ e' ∈ ([("a", ((0 : Int), (1 : Nat))), ("b", (1, 2))] : CacheStore Nat),
        e.2.1 ≤ e'.2.1) ∧
      set_cached_records 2 5 "c" 3
          ([("a", (0, 1)), ("b", (1, 2))] : CacheStore Nat) =
        some (storeSet
          (storeRemove ([("a", (0, 1)), ("b", (1, 2))] : CacheStore Nat) e.1)
          "c" (5, 3))) := by
  have h := c4_cache_capacity_and_eviction (α := Nat) 2 (by decide)
  exact ⟨h.1 _, h.2 [("a", (0, 1)), ("b", (1, 2))] 5 "c" 3 rfl (by decide)⟩

/-! ## C2 — response record extraction -/

/-- C2 exactly as claimed: check, in order, `result.records` (when the
`result` field is a dict containing a records list), `result` itself
(when a list), top-level `records` (when a list), the top-level payload
itself (when a list); anything else yields `[]`.  (No `data`-field
fallback — that is what the claim omits.) -/
def claim_extract_records_c2 (data : JVal) : List JVal :=
  let result := jGet data "result"
  let fromResultRecords : Option (List JVal) :=
    match result with
    | .obj rd =>
        match dGet rd "records" with
        | some (.arr records) => some records
        | _ => none
    | _ => none
  match fromResultRecords with
  | some records => records
  | none =>
      match result with
      | .arr records => records
      | _ =>
          match jGet data "records" with
          | .arr records => records
          | _ =>
              match data with
              | .arr records => records
              | _ => []

/-- C2 counterexample: the payload `{"data": {"records": [{"x": 1}]}}`
matches none of the four shapes enumerated by the claim, so the claim
predicts an empty record list — but `_extract_records` falls back to
the `data` field (`result = data.get("result") or data.get("data") or
data`) and returns the one record. -/
theorem c2_response_extraction_counterexample :
    claim_extract_records_c2
        (.obj [("data", .obj [("records", .arr [.obj [("x", .num 1)]])])]) = [] ∧
    extract_records
        (.obj [("data", .obj [("records", .arr [.obj [("x", .num 1)]])])]) =
      [.obj [("x", .num 1)]] :=
  ⟨rfl, rfl⟩

def recordsListOf (v : JVal) : Option (List JVal) :=
  match v with
  | .obj rd =>
      match dGet rd "records" with
      | some (.arr records) => some records
      | _ => none
  | _ => none

def asRecordsList (v : JVal) : Option (List JVal) :=
  match v with
  | .arr records => some records
  | _ => none

/-- C2 as amended: the extraction source `result` is the first truthy
among the `result` field, the `data` field and the payload itself; the
checks then run in the claimed order (`result["records"]` list,
`result` list, top-level `records` list, top-level list), and any
unmatched shape yields `[]`, never an error. -/
def extract_records_spec (data : JVal) : List JVal :=
  match data with
  | .obj d =>
      let result := pyOr (jGetD d "result") (pyOr (jGetD d "data") (.obj d))
      ((recordsListOf result).orElse (fun _ =>
        (asRecordsList result).orElse (fun _ =>
          (dGet d "records").bind asRecordsList))).getD []
  | .arr records => records
  | _ => []

/-- C2 (amended): `_extract_records` implements exactly the amended
ordered-check extraction; being a total function into record lists, it
never raises on an unrecognized shape. -/
theorem c2_response_extraction_amended (data : JVal) :
    extract_records data = extract_records_spec data := by
  cases data with
  | null => rfl
  | bool b => rfl
  | num n => rfl
  | str s => rfl
  | arr l => rfl
  | obj d =>
      simp only [extract_records, extract_records_spec]
      rcases hres : pyOr (jGetD d "result") (pyOr (jGetD d "data") (JVal.obj d))
        with _ | b | n | s | l | rd
      · rcases hrec : dGet d "records" with _ | v
        · rfl
        · rcases v <;> simp [recordsListOf, asRecordsList, Option.orElse]
      · rcases hrec : dGet d "records" with _ | v
        · rfl
        · rcases v <;> simp [recordsListOf, asRecordsList, Option.orElse]
      · rcases hrec : dGet d "records" with _ | v
        · rfl
        · rcases v <;> simp [recordsListOf, asRecordsList, Option.orElse]
      · rcases hrec : dGet d "records" with _ | v
        · rfl
        · rcases v <;> simp [recordsListOf, asRecordsList, Option.orElse]
      · simp [recordsListOf, asRecordsList, Option.orElse]
      · rcases hrec : dGet rd "records" with _ | v
        · rcases hrec2 : dGet d "records" with _ | v2
          · simp [recordsListOf, asRecordsList, Option.orElse, hrec]
          · rcases v2 <;> simp [recordsListOf, asRecordsList, Option.orElse, hrec]
        · rcases v with _ | b2 | n2 | s2 | l2 | rd2
          · rcases hrec2 : dGet d "records" with _ | v2
            · simp [recordsListOf, asRecordsList, Option.orElse, hrec]
            · rcases v2 <;> simp [recordsListOf, asRecordsList, Option.orElse, hrec]
          · rcases hrec2 : dGet d "records" with _ | v2
            · simp [recordsListOf, asRecordsList, Option.orElse, hrec]
            · rcases v2 <;> simp [recordsListOf, asRecordsList, Option.orElse, hrec]
          · rcases hrec2 : dGet d "records" with _ | v2
            · simp [recordsListOf, asRecordsList, Option.orElse, hrec]
            · rcases v2 <;> simp [recordsListOf, asRecordsList, Option.orElse, hrec]
          · rcases hrec2 : dGet d "records" with _ | v2
            · simp [recordsListOf, asRecordsList, Option.orElse, hrec]
            · rcases v2 <;> simp [recordsListOf, asRecordsList, Option.orElse, hrec]
          · simp [recordsListOf, asRecordsList, Option.orElse, hrec]
          · rcases hrec2 : dGet d "records" with _ | v2
            · simp [recordsListOf, asRecordsList, Option.orElse, hrec]
            · rcases v2 <;> simp [recordsListOf, asRecordsList, Option.orElse, hrec]

/-! ## C10 — batch-results extraction skips failed items -/

/-- Whether a batch item contributes records: a dict with truthy `ok`
and non-`None` `data`. -/
def batch_item_ok (item : JVal) : Bool :=
  match item with
  | .obj d => (jGetD d "ok").truthy && !(jGetD d "data").isNull
  | _ => false

/-- The records one batch item contributes: `_extract_records` of its
`data`, with the item's dict-valued non-empty `params` projected on as
`request<CamelCaseKey>` metadata; a non-qualifying item contributes
nothing. -/
def batch_contribution (item : JVal) : List JVal :=
  match item with
  | .obj d =>
      if !(jGetD d "ok").truthy then []
      else
        match dGet d "data" with
        | none => []
        | some .null => []
        | some data =>
            let extracted := extract_records data
            match dGet d "params" with
            | some (.obj p) =>
                if p.isEmpty then extracted
                else apply_request_metadata extracted (some p)
            | _ => extracted
  | _ => []

theorem extract_batch_records_foldl_general (l : List JVal)
    (acc : List JVal) :
    l.foldl
      (fun records item =>
        match item with
        | .obj d =>
            if !(jGetD d "ok").truthy then records
            else
              match dGet d "data" with
              | none => records
              | some .null => records
              | some data =>
                  let extracted := extract_records data
                  let params : Option (List (String × JVal)) :=
                    match dGet d "params" with
                    | some (.obj p) => some p
                    | _ => none
                  let withMeta :=
                    match params with
                    | some p =>
                        if p.isEmpty then extracted
                        else apply_request_metadata extracted (some p)
                    | none => extracted
                  records ++ withMeta
        | _ => records)
      acc = acc ++ l.flatMap batch_contribution := by
  induction l generalizing acc with
  | nil => simp
  | cons item rest ih =>
      simp only [List.foldl_cons, List.flatMap_cons]
      have hstep : ∀ a : List JVal,
          (match item with
            | .obj d =>
                if !(jGetD d "ok").truthy then a
                else
                  match dGet d "data" with
                  | none => a
                  | some .null => a
                  | some data =>
                      let extracted := extract_records data
                      let params : Option (List (String × JVal)) :=
                        match dGet d "params" with
                        | some (.obj p) => some p
                        | _ => none
                      let withMeta :=
                        match params with
                        | some p =>
                            if p.isEmpty then extracted
                            else apply_request_metadata extracted (some p)
                        | none => extracted
                      a ++ withMeta
            | _ => a) = a ++ batch_contribution item := by
        intro a
        rcases item with _ | b | n | s | l2 | d
        · simp [batch_contribution]
        · simp [batch_contribution]
        · simp [batch_contribution]
        · simp [batch_contribution]
        · simp [batch_contribution]
        · simp only [batch_contribution]
          by_cases hok : (jGetD d "ok").truthy
          · simp only [hok, Bool.not_true, Bool.false_eq_true, if_false, if_true]
            rcases hdata : dGet d "data" with _ | v
            · simp
            · rcases v with _ | b2 | n2 | s2 | l3 | d2 <;>
                rcases hp : dGet d "params" with _ | pv <;>
                  try simp [hp]
              all_goals
                (first
                  | simp
                  | (rcases pv with _ | b3 | n3 | s3 | l4 | p2 <;> simp))
          · simp [hok]
      rw [hstep acc, ih]
      simp

/-- C10: batch extraction is the concatenation, in order, of the
contributions of the items that are dicts with truthy `ok` and
non-`None` `data` (each with its dict-valued, non-empty `params`
projected onto its records as `request<CamelCaseKey>` metadata), and
dropping any non-qualifying item — falsy/missing `ok`, missing (or
`None`) `data`, non-dict — leaves the result of the other items
untouched: partial upstream failures shrink the record set instead of
raising. -/
theorem c10_batch_extraction_skips_failures :
    (∀ results : List JVal,
        extract_batch_records results = results.flatMap batch_contribution) ∧
    (∀ (xs ys : List JVal) (item : JVal), batch_item_ok item = false →
        extract_batch_records (xs ++ item :: ys) =
          extract_batch_records (xs ++ ys)) := by
  have hflat : ∀ results : List JVal,
      extract_batch_records results = results.flatMap batch_contribution := by
    intro results
    unfold extract_batch_records
    simpa using extract_batch_records_foldl_general results []
  refine ⟨hflat, ?_⟩
  intro xs ys item hitem
  have hnil : batch_contribution item = [] := by
    rcases item with _ | b | n | s | l | d
    · rfl
    · rfl
    · rfl
    · rfl
    · rfl
    · simp only [batch_item_ok, Bool.and_eq_false_iff] at hitem
      simp only [batch_contribution]
      rcases hitem with hok | hdata
      · simp [hok]
      · by_cases hok : (jGetD d "ok").truthy
        · simp only [hok, Bool.not_true, if_false]
          rcases hd : dGet d "data" with _ | v
          · rfl
          · rcases v with _ | b2 | n2 | s2 | l3 | d2 <;>
              simp_all [jGetD, hd, JVal.isNull]
        · simp [hok]
  rw [hflat, hflat, List.flatMap_append, List.flatMap_append]
  simp [hnil]

theorem c10_batch_extraction_skips_failures_witness :
    extract_batch_records
        [.obj [("ok", .bool true), ("data", .arr [.obj [("v", .num 1)]])],
         .obj [("ok", .bool false), ("data", .arr [.obj [("v", .num 2)]])]] =
      extract_batch_records
        [.obj [("ok", .bool true), ("data", .arr [.obj [("v", .num 1)]])]] := by
  have h := c10_batch_extraction_skips_failures.2
    [.obj [("ok", .bool true), ("data", .arr [.obj [("v", .num 1)]])]]
    []
    (.obj [("ok", .bool false), ("data", .arr [.obj [("v", .num 2)]])])
    rfl
  simpa using h

/-! ## C8 — params fan-out and request metadata injection -/

theorem dGet_append_right (l m : List (String × JVal)) (k : String)
    (h : dHasKey l k = false) : dGet (l ++ m) k = dGet m k := by
  induction l with
  | nil => rfl
  | cons e rest ih =>
      simp only [dHasKey, Bool.or_eq_false_iff] at h
      simp only [List.cons_append, dGet]
      rw [if_neg (by simpa using h.1)]
      exact ih h.2

theorem dPop_of_hasKey_false (l : List (String × JVal)) (k : String)
    (h : dHasKey l k = false) : dPop l k = l := by
  induction l with
  | nil => rfl
  | cons e rest ih =>
      simp only [dHasKey, Bool.or_eq_false_iff] at h
      simp only [dPop]
      rw [if_neg (by simpa using h.1), ih h.2]

theorem dPop_append_right (l m : List (String × JVal)) (k : String)
    (h : dHasKey l k = false) : dPop (l ++ m) k = l ++ dPop m k := by
  induction l with
  | nil => rfl
  | cons e rest ih =>
      simp only [dHasKey, Bool.or_eq_false_iff] at h
      simp only [List.cons_append, dPop, List.append_eq]
      rw [if_neg (by simpa using h.1), ih h.2]

theorem dSet_of_hasKey_false (l : List (String × JVal)) (k : String)
    (v : JVal) (h : dHasKey l k = false) : dSet l k v = l ++ [(k, v)] := by
  induction l with
  | nil => rfl
  | cons e rest ih =>
      simp only [dHasKey, Bool.or_eq_false_iff] at h
      simp only [dSet, List.cons_append]
      rw [if_neg (by simpa using h.1), ih h.2]

/-- C8: a body `{method: "m", …extra…, params: [{date: d}]}` (any
other outer fields, none of them named `method`/`params`/`requests`)
fans out to exactly one `RequestPayload`: its body keeps `method` and
every other outer field and carries `params = {date: d}`, and its
params are that entry.  Applying that payload's request metadata
injects `requestDate: d` into exactly the records that do not already
define `requestDate`, leaving every field already present unchanged. -/
theorem c8_params_fanout_and_metadata
    (extra : List (String × JVal)) (dval : String) (records : List JVal)
    (hm : dHasKey extra "method" = false)
    (hp : dHasKey extra "params" = false)
    (hr : dHasKey extra "requests" = false) :
    build_request_payloads
        (.obj (("method", .str "m") :: extra ++
          [("params", .arr [.obj [("date", .str dval)]])])) =
      [⟨.obj (("method", .str "m") :: extra ++
          [("params", .obj [("date", .str dval)])]),
        some [("date", .str dval)]⟩] ∧
    apply_request_metadata records (some [("date", .str dval)]) =
      records.map (fun r =>
        match r with
        | .obj m =>
            .obj (if dHasKey m "requestDate" then m
              else m ++ [("requestDate", .str dval)])
        | other => other) := by
  constructor
  · have h1 : dGet (("method", JVal.str "m") :: extra ++
        [("params", JVal.arr [.obj [("date", .str dval)]])]) "requests" = none := by
      simp only [List.cons_append, dGet, List.append_eq]
      rw [if_neg (by decide : ¬ ("method" = "requests")),
        dGet_append_right extra _ _ hr]
      rfl
    have h2 : dGet (("method", JVal.str "m") :: extra ++
        [("params", JVal.arr [.obj [("date", .str dval)]])]) "params" =
        some (.arr [.obj [("date", .str dval)]]) := by
      simp only [List.cons_append, dGet, List.append_eq]
      rw [if_neg (by decide : ¬ ("method" = "params")),
        dGet_append_right extra _ _ hp]
      rfl
    have hpop1 : dPop (("method", JVal.str "m") :: extra ++
        [("params", JVal.arr [.obj [("date", .str dval)]])]) "params" =
        ("method", JVal.str "m") :: extra := by
      simp only [List.cons_append, dPop, List.append_eq]
      rw [if_neg (by decide : ¬ ("method" = "params")),
        dPop_append_right extra _ _ hp]
      simp [dPop]
    have hpop2 : dPop (("method", JVal.str "m") :: extra) "requests" =
        ("method", JVal.str "m") :: extra := by
      simp only [dPop]
      rw [if_neg (by decide : ¬ ("method" = "requests")),
        dPop_of_hasKey_false extra _ hr]
    have hset : dSet (("method", JVal.str "m") :: extra) "params"
        (.obj [("date", .str dval)]) =
        ("method", JVal.str "m") :: extra ++
          [("params", JVal.obj [("date", .str dval)])] := by
      simp only [dSet]
      rw [if_neg (by decide : ¬ ("method" = "params")),
        dSet_of_hasKey_false extra _ _ hp]
      simp
    simp only [build_request_payloads, h1, h2, build_request_payloads_from_params,
      hpop1, hpop2, hset]
    simp only [JVal.isObj, List.filterMap]
    rw [hset]
    simp
  · rfl

theorem c8_params_fanout_and_metadata_witness :
    build_request_payloads
        (.obj [("method", .str "m"), ("extra", .str "v"),
          ("params", .arr [.obj [("date", .str "2025-01-01")]])]) =
      [⟨.obj [("method", .str "m"), ("extra", .str "v"),
          ("params", .obj [("date", .str "2025-01-01")])],
        some [("date", .str "2025-01-01")]⟩] := by
  have h := c8_params_fanout_and_metadata [("extra", .str "v")] "2025-01-01"
    [] rfl rfl rfl
  simpa using h.1

/-! ## C9 — GET with structured body is issued as POST with override -/

theorem sGet_append (l m : List (String × String)) (k : String) :
    sGet (l ++ m) k =
      match sGet l k with
      | some v => some v
      | none => sGet m k := by
  induction l with
  | nil => rfl
  | cons e rest ih =>
      simp only [List.cons_append, sGet]
      by_cases h : e.1 = k
      · simp [h]
      · simp only [if_neg h]
        exact ih

theorem sGet_sSetDefault_self (d : List (String × String)) (k v : String) :
    sGet (sSetDefault d k v) k = some ((sGet d k).getD v) := by
  unfold sSetDefault
  cases h : sGet d k with
  | some w => simp [h]
  | none =>
      simp only [Option.getD_none]
      rw [sGet_append, h]
      simp [sGet]

theorem sGet_sSetDefault_other (d : List (String × String)) (k v k' : String)
    (h : k' ≠ k) : sGet (sSetDefault d k v) k' = sGet d k' := by
  unfold sSetDefault
  cases hg : sGet d k with
  | some w => rfl
  | none =>
      rw [sGet_append]
      cases hg' : sGet d k' with
      | some w => rfl
      | none =>
          simp only [sGet]
          rw [if_neg (fun he => h he.symm)]

theorem load_records_fold_trace (net : HttpRequest → JVal)
    (m u : String) (hd : List (String × String)) (ps : List RequestPayload) :
    ∀ acc : List JVal × List HttpRequest,
      (ps.foldl
        (fun acc p =>
          (acc.1 ++
             apply_request_metadata
               (extract_records (net (build_payload_request m u hd p)))
               p.params,
           acc.2 ++ [build_payload_request m u hd p])) acc).2 =
        acc.2 ++ ps.map (build_payload_request m u hd) := by
  induction ps with
  | nil => intro acc; simp
  | cons p rest ih =>
      intro acc
      simp only [List.foldl_cons, List.map_cons]
      rw [ih]
      simp

/-- C9: for a source that does not resolve locally and whose trimmed
url is non-empty and not a mock url, `load_records` issues exactly one
HTTP request per fan-out payload, built by `build_payload_request`; and
whenever the source method is GET and a payload's body is structured
(dict or list), that request goes out as POST carrying the body as
JSON (never dropped), with no query params and with the
`X-HTTP-Method-Override: GET` and `Content-Type: application/json`
headers added exactly when not already present. -/
theorem c9_get_with_body_override (bfu : String → String → String)
    (net : HttpRequest → JVal) (fs : String → Option JVal)
    (cwd base : String) (rs : RemoteSource)
    (hlocal : (extract_local_records fs cwd rs).1 = false)
    (hurl : pyStrip (pyStrOr rs.url "") ≠ "")
    (hmock : strStartsWith (pyStrip (pyStrOr rs.url "")) "mock://" = false) :
    (load_records bfu net fs cwd base rs).2 =
      (build_request_payloads (normalize_remote_body rs)).map
        (build_payload_request (strToUpper (pyStrOr rs.method "POST"))
          (bfu (rstripSlash base) (pyStrip (pyStrOr rs.url "")))
          (rs.headers.getD [])) ∧
    (∀ (full_url : String) (headers : List (String × String))
        (p : RequestPayload), p.body.isStructured = true →
      (build_payload_request "GET" full_url headers p).method = "POST" ∧
      (build_payload_request "GET" full_url headers p).jsonBody = some p.body ∧
      (build_payload_request "GET" full_url headers p).params = none ∧
      sGet (build_payload_request "GET" full_url headers p).headers
          "X-HTTP-Method-Override" =
        some ((sGet headers "X-HTTP-Method-Override").getD "GET") ∧
      sGet (build_payload_request "GET" full_url headers p).headers
          "Content-Type" =
        some ((sGet headers "Content-Type").getD "application/json")) := by
  constructor
  · rcases hloc : extract_local_records fs cwd rs with ⟨found, recs⟩
    rw [hloc] at hlocal
    simp only at hlocal
    subst hlocal
    simp only [load_records, hloc, if_neg hurl, hmock, Bool.false_eq_true,
      if_false]
    by_cases hemp : build_request_payloads (normalize_remote_body rs) = []
    · simp [hemp]
    · have hne : (build_request_payloads (normalize_remote_body rs)).isEmpty =
          false := by
        simpa [List.isEmpty_iff] using hemp
      simp only [hne, Bool.false_eq_true, if_false]
      exact load_records_fold_trace net _ _ _ _ ([], [])
  · intro full_url headers p hstruct
    have hjson : (if p.body.isStructured then some p.body else none) =
        some p.body := by
      simp [hstruct]
    simp only [build_payload_request, hjson, Option.isSome_some,
      Bool.and_true, if_pos (by rfl : ("GET" : String) = "GET")]
    refine ⟨rfl, rfl, rfl, ?_, ?_⟩
    · show sGet (sSetDefault
          (sSetDefault headers "X-HTTP-Method-Override" "GET")
          "Content-Type" "application/json") "X-HTTP-Method-Override" = _
      rw [sGet_sSetDefault_other _ _ _ _
        (by decide : ("X-HTTP-Method-Override" : String) ≠ "Content-Type"),
        sGet_sSetDefault_self]
    · show sGet (sSetDefault
          (sSetDefault headers "X-HTTP-Method-Override" "GET")
          "Content-Type" "application/json") "Content-Type" = _
      rw [sGet_sSetDefault_self,
        sGet_sSetDefault_other _ _ _ _
          (by decide : ("Content-Type" : String) ≠ "X-HTTP-Method-Override")]

theorem c9_get_with_body_override_witness :
    (load_records (fun b u => b ++ "/" ++ u) (fun _ => .null) (fun _ => none)
        "/srv" "http://base"
        { url := some "http://h/api", method := some "GET",
          body := some (.obj [("a", .num 1)]) }).2 =
      [{ method := "POST", url := "http://base/http://h/api",
         headers := [("X-HTTP-Method-Override", "GET"),
           ("Content-Type", "application/json")],
         params := none, jsonBody := some (.obj [("a", .num 1)]) }] := by
  have h := c9_get_with_body_override (fun b u => b ++ "/" ++ u)
    (fun _ => .null) (fun _ => none) "/srv" "http://base"
    { url := some "http://h/api", method := some "GET",
      body := some (.obj [("a", .num 1)]) }
    rfl (by decide) (by decide)
  rw [h.1]
  rfl

/-! ## C6 — results files are confined to the results directory -/

/-- A path the code is allowed to open: the results directory itself or
a path below it (the complement of the guard in `_load_results_file`). -/
def insideResultsDir (cwd q : String) : Prop :=
  q = absPath cwd (resultsDir cwd) ∨
    strStartsWith q (absPath cwd (resultsDir cwd) ++ "/") = true

theorem guardedReadEq (fs fs' : String → Option JVal) (cwd : String)
    (h : ∀ q, insideResultsDir cwd q → fs q = fs' q) (t : String) :
    (if (decide (t ≠ absPath cwd (resultsDir cwd)) &&
          !strStartsWith t (absPath cwd (resultsDir cwd) ++ "/")) = true then
        (none : Option JVal)
      else fs t) =
    (if (decide (t ≠ absPath cwd (resultsDir cwd)) &&
          !strStartsWith t (absPath cwd (resultsDir cwd) ++ "/")) = true then
        none
      else fs' t) := by
  split
  · rfl
  · rename_i hcond
    apply h
    simp only [Bool.and_eq_true, decide_eq_true_eq, Bool.not_eq_true',
      not_and] at hcond
    unfold insideResultsDir
    by_cases heq : t = absPath cwd (resultsDir cwd)
    · exact Or.inl heq
    · exact Or.inr (by simpa using hcond heq)

theorem load_results_file_eq_of_agree (fs fs' : String → Option JVal)
    (cwd p : String)
    (h : ∀ q, insideResultsDir cwd q → fs q = fs' q) :
    load_results_file fs cwd p = load_results_file fs' cwd p := by
  by_cases hp : p = ""
  · simp [load_results_file, hp]
  · simp only [load_results_file, if_neg hp]
    split
    · exact guardedReadEq fs fs' cwd h _
    · exact guardedReadEq fs fs' cwd h _

theorem local_from_candidate_eq_of_agree (fs fs' : String → Option JVal)
    (cwd : String) (c : JVal)
    (h : ∀ q, insideResultsDir cwd q → fs q = fs' q) :
    local_from_candidate fs cwd c = local_from_candidate fs' cwd c := by
  rcases c with _ | b | n | s | l | d
  · rfl
  · rfl
  · rfl
  · rfl
  · rfl
  · simp only [local_from_candidate]
    rcases hv : pyOr (jGetD d "resultsFileRef") (jGetD d "results_file_ref")
      with _ | b | n | s | l | m
    · rfl
    · rfl
    · rfl
    · simp only [load_results_file_eq_of_agree fs fs' cwd s h]
    · rfl
    · rfl

theorem firstLocal_eq_of_agree (fs fs' : String → Option JVal)
    (cwd : String) (cs : List JVal)
    (h : ∀ q, insideResultsDir cwd q → fs q = fs' q) :
    firstLocal fs cwd cs = firstLocal fs' cwd cs := by
  induction cs with
  | nil => rfl
  | cons c rest ih =>
      simp only [firstLocal]
      rw [local_from_candidate_eq_of_agree fs fs' cwd c h, ih]

/-- C6: (a) for every `resultsFileRef` whose absolute resolved path
lies outside the configured results directory (neither the directory
itself nor below it), `_load_results_file` answers `None` for every
possible file-system content — in particular without opening the file;
(b) consequently local extraction reads nothing outside that
directory: its result only depends on the file system's values at
paths inside the results directory. -/
theorem c6_results_path_confinement (cwd : String) :
    (∀ (fs : String → Option JVal) (path_value : String),
        absPath cwd (if isAbsPath path_value then path_value
            else pathJoin cwd path_value) ≠ absPath cwd (resultsDir cwd) →
        strStartsWith (absPath cwd (if isAbsPath path_value then path_value
            else pathJoin cwd path_value))
          (absPath cwd (resultsDir cwd) ++ "/") = false →
        load_results_file fs cwd path_value = none) ∧
    (∀ (fs fs' : String → Option JVal) (rs : RemoteSource),
        (∀ q, insideResultsDir cwd q → fs q = fs' q) →
        extract_local_records fs cwd rs = extract_local_records fs' cwd rs) := by
  constructor
  · intro fs path_value hne hpre
    unfold load_results_file
    by_cases hp : path_value = ""
    · simp [hp]
    · simp only [if_neg hp]
      rw [if_pos]
      simp [hne, hpre]
  · intro fs fs' rs h
    simp only [extract_local_records]
    rw [firstLocal_eq_of_agree fs fs' cwd _ h]

theorem c6_results_path_confinement_witness :
    (absPath "/srv/app" (if isAbsPath "../../etc/passwd" then "../../etc/passwd"
        else pathJoin "/srv/app" "../../etc/passwd") ≠
      absPath "/srv/app" (resultsDir "/srv/app")) ∧
    load_results_file (fun _ => some .null) "/srv/app" "../../etc/passwd" =
      none := by
  refine ⟨by decide, ?_⟩
  exact (c6_results_path_confinement "/srv/app").1 (fun _ => some .null)
    "../../etc/passwd" (by decide) (by decide)

/-! ## C7 — local extraction first, no network once matched -/

/-- The amended local-match condition for one candidate, following the
corrected claim: a dict candidate matches when it carries a
`resultsFileRef`/`results_file_ref` string resolving (inside the
results directory) to a recognized payload, or a list-valued `results`
field, or a `records` field, or a `result`/`data` field while not
itself looking like a request payload (no `method`/`params`/`requests`
keys); a list candidate matches when it looks like a batch-results
array. -/
def candidate_matches_spec (fs : String → Option JVal) (cwd : String)
    (c : JVal) : Bool :=
  match c with
  | .obj d =>
      (match pyOr (jGetD d "resultsFileRef") (jGetD d "results_file_ref") with
       | .str ref =>
           match load_results_file fs cwd ref with
           | some file_payload =>
               (extract_local_records_from_payload file_payload).1
           | none => false
       | _ => false) ||
      (jGetD d "results").isArr ||
      dHasKey d "records" ||
      ((dHasKey d "result" || dHasKey d "data") &&
        !looks_like_request_payload (.obj d))
  | .arr items => looks_like_batch_results (.arr items)
  | _ => false

/-- The amended whole-source condition: some candidate — the normalized
body (when structured) or the dict-valued `remoteMeta` — matches. -/
def local_condition_spec (fs : String → Option JVal) (cwd : String)
    (rs : RemoteSource) : Bool :=
  let body := normalize_remote_body rs
  let candidates :=
    (if body.isStructured then [body] else []) ++
      (match rs.remoteMeta with
       | some (.obj m) => [JVal.obj m]
       | _ => [])
  candidates.any (candidate_matches_spec fs cwd)

theorem local_from_candidate_isSome (fs : String → Option JVal)
    (cwd : String) (c : JVal) :
    (local_from_candidate fs cwd c).isSome = candidate_matches_spec fs cwd c := by
  rcases c with _ | b | n | s | l | d
  · rfl
  · rfl
  · rfl
  · rfl
  · simp only [local_from_candidate, candidate_matches_spec]
    by_cases hb : looks_like_batch_results (.arr l)
    · simp [hb]
    · simp [hb]
  · simp only [local_from_candidate, candidate_matches_spec]
    rcases hv : pyOr (jGetD d "resultsFileRef") (jGetD d "results_file_ref")
      with _ | b | n | s | l | m
    case str =>
      rcases hload : load_results_file fs cwd s with _ | fp
      · rcases hres : dGet d "results" with _ | v
        · by_cases hrec : dHasKey d "records" <;>
            by_cases hrd : (dHasKey d "result" || dHasKey d "data") &&
              !looks_like_request_payload (.obj d) <;>
            simp [hres, hrec, hrd, jGetD, JVal.isArr, hload]
        · rcases v with _ | b2 | n2 | s2 | l2 | m2 <;>
            by_cases hrec : dHasKey d "records" <;>
            by_cases hrd : (dHasKey d "result" || dHasKey d "data") &&
              !looks_like_request_payload (.obj d) <;>
            simp [hres, hrec, hrd, jGetD, JVal.isArr, hload]
      · rcases hpl : extract_local_records_from_payload fp with ⟨found, recs⟩
        rcases found with _ | _
        · rcases hres : dGet d "results" with _ | v
          · by_cases hrec : dHasKey d "records" <;>
              by_cases hrd : (dHasKey d "result" || dHasKey d "data") &&
                !looks_like_request_payload (.obj d) <;>
              simp [hres, hrec, hrd, jGetD, JVal.isArr, hload, hpl]
          · rcases v with _ | b2 | n2 | s2 | l2 | m2 <;>
              by_cases hrec : dHasKey d "records" <;>
              by_cases hrd : (dHasKey d "result" || dHasKey d "data") &&
                !looks_like_request_payload (.obj d) <;>
              simp [hres, hrec, hrd, jGetD, JVal.isArr, hload, hpl]
        · simp [hload, hpl]
    all_goals
      rcases hres : dGet d "results" with _ | v
      case none =>
        by_cases hrec : dHasKey d "records" <;>
          by_cases hrd : (dHasKey d "result" || dHasKey d "data") &&
            !looks_like_request_payload (.obj d) <;>
          simp [hres, hrec, hrd, jGetD, JVal.isArr]
      case some =>
        rcases v with _ | b2 | n2 | s2 | l2 | m2 <;>
          by_cases hrec : dHasKey d "records" <;>
          by_cases hrd : (dHasKey d "result" || dHasKey d "data") &&
            !looks_like_request_payload (.obj d) <;>
          simp [hres, hrec, hrd, jGetD, JVal.isArr]

theorem firstLocal_isSome_eq_any (fs : String → Option JVal) (cwd : String)
    (cs : List JVal) :
    (firstLocal fs cwd cs).isSome = cs.any (candidate_matches_spec fs cwd) := by
  induction cs with
  | nil => rfl
  | cons c rest ih =>
      simp only [firstLocal, List.any_cons]
      rcases hc : local_from_candidate fs cwd c with _ | r
      · have := local_from_candidate_isSome fs cwd c
        rw [hc] at this
        simp [← this, ih]
      · have := local_from_candidate_isSome fs cwd c
        rw [hc] at this
        simp [← this]

/-- C7 (amended): source resolution is first-match-wins with local
extraction first.  Local extraction fires exactly when the amended
condition holds — the normalized body is a batch-results array, or the
structured body / dict-valued `remoteMeta` carries a `records` field, a
list-valued `results` field, a `result`/`data` field while not itself
looking like a request payload, or a resolvable `resultsFileRef` — and
whenever it fires, `load_records` returns the locally extracted
records and issues no HTTP request at all. -/
theorem c7_local_first_resolution :
    (∀ (fs : String → Option JVal) (cwd : String) (rs : RemoteSource),
        (extract_local_records fs cwd rs).1 = local_condition_spec fs cwd rs) ∧
    (∀ (bfu : String → String → String) (net : HttpRequest → JVal)
        (fs : String → Option JVal) (cwd base : String) (rs : RemoteSource),
        local_condition_spec fs cwd rs = true →
        load_records bfu net fs cwd base rs =
          ((extract_local_records fs cwd rs).2, [])) := by
  have hfound : ∀ (fs : String → Option JVal) (cwd : String)
      (rs : RemoteSource),
      (extract_local_records fs cwd rs).1 = local_condition_spec fs cwd rs := by
    intro fs cwd rs
    simp only [extract_local_records, local_condition_spec]
    rw [← firstLocal_isSome_eq_any]
    rcases hfl : firstLocal fs cwd _ with _ | r
    · simp
    · simp
  refine ⟨hfound, ?_⟩
  intro bfu net fs cwd base rs hcond
  have h1 := hfound fs cwd rs
  rw [hcond] at h1
  rcases hloc : extract_local_records fs cwd rs with ⟨found, recs⟩
  rw [hloc] at h1
  simp only at h1
  subst h1
  simp only [load_records, hloc]

/-- C7 counterexample: the body
`{"method": "x", "data": [{"v": 1}]}` contains a `data` field, so the
claim as stated predicts local extraction and no network request — but
because the body also looks like a request payload (it has `method`),
`_extract_local_records` rejects it and `load_records` issues one HTTP
request. -/
theorem c7_local_first_resolution_counterexample :
    (match normalize_remote_body
        { url := some "http://h/api", method := some "POST",
          body := some (.obj [("method", .str "x"),
            ("data", .arr [.obj [("v", .num 1)]])]) } with
      | .obj d => dHasKey d "data"
      | _ => false) = true ∧
    ((load_records (fun _ u => u) (fun _ => .null) (fun _ => none)
        "/srv" "http://b"
        { url := some "http://h/api", method := some "POST",
          body := some (.obj [("method", .str "x"),
            ("data", .arr [.obj [("v", .num 1)]])]) }).2).length = 1 :=
  ⟨rfl, rfl⟩

theorem c7_local_first_resolution_witness :
    load_records (fun _ u => u) (fun _ => .null) (fun _ => none)
        "/srv" "http://b"
        { url := some "http://h/api", method := some "POST",
          body := some (.obj [("data", .arr [.obj [("v", .num 1)]])]) } =
      ([.obj [("v", .num 1)]], []) := by
  have h := c7_local_first_resolution.2 (fun _ u => u) (fun _ => .null)
    (fun _ => none) "/srv" "http://b"
    { url := some "http://h/api", method := some "POST",
      body := some (.obj [("data", .arr [.obj [("v", .num 1)]])]) }
    rfl
  rw [h]
  rfl

/-! ## C3 — cache key: determinism and its limits -/

/-- C3 counterexample: two calls that differ in exactly one of the
claimed inputs — the `templateId`, `""` versus `"A"` — produce the
same key when the source object carries `id = "A"`, because
`build_records_cache_key` replaces a falsy template id by
`getattr(remote_source, "id", None)`.  So "changing any one of these
inputs yields a different key" fails. -/
def c3SourceWithId : RemoteSource :=
  { url := some "u", method := some "POST",
    body := some (.obj [("a", .num 1)]), id := some "A" }

theorem c3_cache_key_counterexample :
    ("" : String) ≠ "A" ∧
    build_records_cache_key "" (some c3SourceWithId) .null =
      build_records_cache_key "A" (some c3SourceWithId) .null := by
  refine ⟨by decide, ?_⟩
  have h : cacheKeyPayload "" (some c3SourceWithId) .null =
      cacheKeyPayload "A" (some c3SourceWithId) .null := rfl
  exact congrArg (fun p => sha256Hex (utf8Encode (jsonDumps p))) h

/-- C3 (amended): the cache key is a pure function of the claimed
inputs — `templateId`, the source's `url` and `method`, the
`remoteMeta` subset `{jobId, batchJobId, batchId, resultsFileRef,
results_file_ref}` (non-`None` values), the normalized body (which
also determines the fanned-out request params), `joins` — plus, as the
counterexample forces, the source's `id`/`remoteId` fallback used when
`templateId` is empty.  Two sources agreeing on those projections give
the same key however much the rest (headers, other `remoteMeta` keys,
raw versus parsed body) differs; but changing a single input need not
change the key, since an empty `templateId` is replaced by the
source's id. -/
theorem c3_cache_key_projection (template_id : String)
    (rsa rsb : RemoteSource) (joins : JVal)
    (hurl : rsa.url = rsb.url) (hmethod : rsa.method = rsb.method)
    (hbody : normalize_remote_body rsa = normalize_remote_body rsb)
    (hmeta : remote_meta_key_of rsa.remoteMeta =
      remote_meta_key_of rsb.remoteMeta)
    (hid : rsa.id = rsb.id) (hrid : rsa.remoteId = rsb.remoteId) :
    build_records_cache_key template_id (some rsa) joins =
      build_records_cache_key template_id (some rsb) joins := by
  have h : cacheKeyPayload template_id (some rsa) joins =
      cacheKeyPayload template_id (some rsb) joins := by
    simp only [cacheKeyPayload, cacheTemplateId, Option.some_bind]
    rw [hurl, hmethod, hbody, hmeta, hid, hrid]
  exact congrArg (fun p => sha256Hex (utf8Encode (jsonDumps p))) h

def c3SourceA : RemoteSource :=
  { url := some "u", method := some "POST", headers := some [("h", "1")],
    body := some (.obj [("a", .num 1)]),
    remoteMeta := some (.obj [("jobId", .str "j"), ("junk", .num 1)]) }

def c3SourceB : RemoteSource :=
  { url := some "u", method := some "POST", headers := none,
    body := some (.obj [("a", .num 1)]),
    remoteMeta := some (.obj [("jobId", .str "j"), ("other", .num 2)]) }

theorem c3_cache_key_projection_witness :
    build_records_cache_key "T" (some c3SourceA) .null =
      build_records_cache_key "T" (some c3SourceB) .null := by
  exact c3_cache_key_projection "T" c3SourceA c3SourceB .null
    rfl rfl rfl rfl rfl rfl
